/- Verification development for the scene / animation module of NRIFramework
   (Include/Utils.h).  Pure data is embedded directly; GPU-side float types are
   modelled over the rationals. -/
import Mathlib

namespace utils

/-- `constexpr uint32_t InvalidIndex = uint32_t(-1);` -/
def InvalidIndex : Nat := 4294967295

/-- Model of `float4x4` (external math type) as a 4×4 rational matrix;
identity and multiplication come from the matrix ring. -/
abbrev float4x4 := Matrix (Fin 4) (Fin 4) ℚ

/-- Model of `double3`. -/
structure double3 where
  x : ℚ := 0
  y : ℚ := 0
  z : ℚ := 0
deriving DecidableEq

/-- Model of `float3`. -/
structure float3 where
  x : ℚ := 0
  y : ℚ := 0
  z : ℚ := 0
deriving DecidableEq

/-- Model of `float4` (used for rotation quaternions). -/
structure float4 where
  x : ℚ := 0
  y : ℚ := 0
  z : ℚ := 0
  w : ℚ := 0
deriving DecidableEq

/-- `enum class AlphaMode` (constructor names adjusted to Lean style). -/
inductive AlphaMode where
  | opaqueAlpha
  | premultiplied
  | transparent
  | off
deriving DecidableEq

/-- `struct Texture`: the decoded texture payload heap-owned by the scene.
`Mip* mips` is modelled as a list of opaque mip handles; `nri::Format` as a
numeric code. -/
structure Texture where
  mips : List Nat := []
  name : String := ""
  hash : Nat := 0
  alphaMode : AlphaMode := .opaqueAlpha
  format : Nat := 0
  width : Nat := 0
  height : Nat := 0
  depth : Nat := 0
  mipNum : Nat := 0
  arraySize : Nat := 0

/-- `struct Material` (StaticTexture::Black = 0, FlatNormal = 2). -/
structure Material where
  diffuseMapIndex : Nat := 0
  specularMapIndex : Nat := 0
  normalMapIndex : Nat := 2
  emissiveMapIndex : Nat := 0
  alphaMode : AlphaMode := .opaqueAlpha

/-- `struct Instance` with the default member initializers from Utils.h:
identity rotations, zero positions, unit scale, invalid mesh/material
indices, `allowUpdate = false`. -/
structure Instance where
  rotation : float4x4 := 1
  rotationPrev : float4x4 := 1
  position : double3 := {}
  positionPrev : double3 := {}
  scale : float3 := ⟨1, 1, 1⟩
  meshIndex : Nat := InvalidIndex
  materialIndex : Nat := InvalidIndex
  allowUpdate : Bool := false

/-- A default-constructed `Instance` (all member initializers). -/
def defaultInstance : Instance := {}

/-- Model of `cBoxf` (external AABB type): min/max corners. -/
structure cBoxf where
  vMin : float3 := {}
  vMax : float3 := {}

/-- `struct Mesh`. -/
structure Mesh where
  aabb : cBoxf := {}
  vertexOffset : Nat := 0
  indexOffset : Nat := 0
  indexNum : Nat := 0
  vertexNum : Nat := 0
  blasIndex : Nat := InvalidIndex

/-- `struct Vertex` (packed attributes kept as raw words). -/
structure Vertex where
  position : float3 := {}
  uv : Nat := 0
  normal : Nat := 0
  tangent : Nat := 0

/-- `struct UnpackedVertex`. -/
structure UnpackedVertex where
  position : float3 := {}
  uv : ℚ × ℚ := (0, 0)
  normal : float3 := {}
  tangent : float4 := {}

/-- `struct Primitive`. -/
structure Primitive where
  worldToUvUnits : ℚ := 0
  curvature : ℚ := 0

/-- `struct AnimationNode`: three keyframe channels plus the cached local
transform `mTransform`. -/
structure AnimationNode where
  positionValues : List double3 := []
  rotationValues : List float4 := []
  scaleValues : List float3 := []
  positionKeys : List ℚ := []
  rotationKeys : List ℚ := []
  scaleKeys : List ℚ := []
  mTransform : float4x4 := 1

/-- A default `AnimationNode` (identity transform, no keys). -/
def defaultAnimationNode : AnimationNode := {}

/-- `struct NodeTree`: children, owned instance indices, static local
transform, content hash, optional animation-node index. -/
inductive NodeTree where
  | mk : List NodeTree → List Nat → float4x4 → Nat → Nat → NodeTree

def NodeTree.children : NodeTree → List NodeTree
  | .mk c _ _ _ _ => c

def NodeTree.instances : NodeTree → List Nat
  | .mk _ i _ _ _ => i

def NodeTree.mTransform : NodeTree → float4x4
  | .mk _ _ m _ _ => m

def NodeTree.hash : NodeTree → Nat
  | .mk _ _ _ h _ => h

def NodeTree.animationNodeIndex : NodeTree → Nat
  | .mk _ _ _ _ a => a

/-- `struct Animation`. -/
structure Animation where
  animationNodes : List AnimationNode := []
  rootNode : NodeTree := .mk [] [] 1 0 InvalidIndex
  cameraNode : NodeTree := .mk [] [] 1 0 InvalidIndex
  animationName : String := ""
  durationMs : ℚ := 0
  animationProgress : ℚ := 0
  sign : ℚ := 1
  normalizedTime : ℚ := 0
  hasCameraAnimation : Bool := false

/-- `struct Scene`: transient resources (textures, vertex/index/primitive
buffers) and persistent resources (materials, instances, meshes,
animations). -/
structure Scene where
  textures : List Texture := []
  vertices : List Vertex := []
  unpackedVertices : List UnpackedVertex := []
  indices : List Nat := []
  primitives : List Primitive := []
  materials : List Material := []
  instances : List Instance := []
  meshes : List Mesh := []
  animations : List Animation := []
  mSceneToWorld : float4x4 := 1
  aabb : cBoxf := {}

/-- Linear interpolation on ℚ. -/
def lerpQ (f a b : ℚ) : ℚ := a + f * (b - a)

/-- Component-wise linear interpolation on `double3` (position channel). -/
def lerpD3 (f : ℚ) (a b : double3) : double3 :=
  ⟨lerpQ f a.x b.x, lerpQ f a.y b.y, lerpQ f a.z b.z⟩

/-- Component-wise linear interpolation on `float3` (scale channel). -/
def lerpF3 (f : ℚ) (a b : float3) : float3 :=
  ⟨lerpQ f a.x b.x, lerpQ f a.y b.y, lerpQ f a.z b.z⟩

/-- Quaternion dot product. -/
def qdot (a b : float4) : ℚ := a.x * b.x + a.y * b.y + a.z * b.z + a.w * b.w

/-- Quaternion negation. -/
def qneg (a : float4) : float4 := ⟨-a.x, -a.y, -a.z, -a.w⟩

/-- Modelled from the spec: rotation interpolation is spherical, shortest-arc
(negate one quaternion when the dot product is negative).  The transcendental
spherical weights are not representable over ℚ, so the blend between the
adjusted endpoints is modelled linearly; at the endpoints (f = 0 against the
first-key clamp branch, f = 1) this agrees with slerp, and the claims below
depend only on those. -/
def slerpSA (f : ℚ) (a b : float4) : float4 :=
  let a2 := if qdot a b < 0 then qneg a else a
  ⟨lerpQ f a2.x b.x, lerpQ f a2.y b.y, lerpQ f a2.z b.z, lerpQ f a2.w b.w⟩

/-- Walk a channel for the bracketing keyframe pair; `k0, v0` is the last key
at or before the cursor, clamping to the final value past the end. -/
def sampleGo (interp : ℚ → α → α → α) (t : ℚ) : ℚ → α → List ℚ → List α → α
  | _, v0, [], _ => v0
  | _, v0, _ :: _, [] => v0
  | k0, v0, k1 :: ks, v1 :: vs =>
    if t ≤ k1 then
      interp (if k1 = k0 then 0 else (t - k0) / (k1 - k0)) v0 v1
    else
      sampleGo interp t k1 v1 ks vs

/-- Modelled from the spec: the per-channel sampling policy of
`AnimationNode::Update` (whose body is not under src/) — find the bracketing
pair `(t0,v0),(t1,v1)` with `t0 ≤ time ≤ t1`, interpolation factor
`(time - t0)/(t1 - t0)` guarded for `t1 = t0`; clamp to the first value when
`time` precedes the first key and to the last value when it follows the last;
a channel with zero keys contributes the default. -/
def sampleTrack (interp : ℚ → α → α → α) (dflt : α) (keys : List ℚ)
    (values : List α) (t : ℚ) : α :=
  match keys, values with
  | k :: ks, v :: vs => if t ≤ k then v else sampleGo interp t k v ks vs
  | _, _ => dflt

/-- Position channel of `AnimationNode::Update` (zero keys ⇒ no translation). -/
def AnimationNode.samplePosition (n : AnimationNode) (t : ℚ) : double3 :=
  sampleTrack lerpD3 {} n.positionKeys n.positionValues t

/-- Rotation channel of `AnimationNode::Update` (zero keys ⇒ identity
quaternion). -/
def AnimationNode.sampleRotation (n : AnimationNode) (t : ℚ) : float4 :=
  sampleTrack slerpSA ⟨0, 0, 0, 1⟩ n.rotationKeys n.rotationValues t

/-- Scale channel of `AnimationNode::Update` (zero keys ⇒ unit scale). -/
def AnimationNode.sampleScale (n : AnimationNode) (t : ℚ) : float3 :=
  sampleTrack lerpF3 ⟨1, 1, 1⟩ n.scaleKeys n.scaleValues t

/-- Homogeneous translation matrix. -/
def translationMat (p : double3) : float4x4 :=
  !![1, 0, 0, p.x; 0, 1, 0, p.y; 0, 0, 1, p.z; 0, 0, 0, 1]

/-- Rotation matrix of a (unit) quaternion. -/
def quatToMat (q : float4) : float4x4 :=
  !![1 - 2*(q.y^2 + q.z^2), 2*(q.x*q.y - q.z*q.w), 2*(q.x*q.z + q.y*q.w), 0;
     2*(q.x*q.y + q.z*q.w), 1 - 2*(q.x^2 + q.z^2), 2*(q.y*q.z - q.x*q.w), 0;
     2*(q.x*q.z - q.y*q.w), 2*(q.y*q.z + q.x*q.w), 1 - 2*(q.x^2 + q.y^2), 0;
     0, 0, 0, 1]

/-- Homogeneous scale matrix. -/
def scaleMat (s : float3) : float4x4 :=
  !![s.x, 0, 0, 0; 0, s.y, 0, 0; 0, 0, s.z, 0; 0, 0, 0, 1]

/-- Modelled from the spec: `AnimationNode::Update(time)` (body not under
src/) samples the three channels independently at `time` and writes the
composed local transform (translation × rotation × scale) into the cached
`mTransform`; it mutates nothing else. -/
def AnimationNode.Update (n : AnimationNode) (t : ℚ) : AnimationNode :=
  { n with mTransform :=
      translationMat (n.samplePosition t) * quatToMat (n.sampleRotation t) *
        scaleMat (n.sampleScale t) }

/-- Spec §4.2 step 1: a node's local transform is the cached transform of its
animation node when `animationNodeIndex != InvalidIndex`, else the node's
static `mTransform`. -/
def localTransform (animationNodes : List AnimationNode) (t : NodeTree) : float4x4 :=
  if t.animationNodeIndex = InvalidIndex then t.mTransform
  else (animationNodes.getD t.animationNodeIndex defaultAnimationNode).mTransform

/-- Translation column of a homogeneous world transform. -/
def translationOf (m : float4x4) : double3 := ⟨m 0 3, m 1 3, m 2 3⟩

/-- Spec §4.2 step 3: snapshot the previous transform into the `*Prev`
fields, then overwrite the current fields from the world transform. -/
def writeInstance (world : float4x4) (inst : Instance) : Instance :=
  { inst with
      rotationPrev := inst.rotation
      positionPrev := inst.position
      rotation := world
      position := translationOf world }

/-- Apply `writeInstance` at every instance index a node owns. -/
def writeInstances (world : float4x4) (idxs : List Nat)
    (insts : List Instance) : List Instance :=
  idxs.foldl (fun acc i => acc.set i (writeInstance world (acc.getD i defaultInstance))) insts

mutual
/-- Modelled from the spec: `NodeTree::Animate(scene, animationNodes,
parentTransform, outTransform)` (body not under src/) — world transform is
`parentTransform × localTransform`; with a null `outTransform`
(`hasOut = false`) it is written into every owned instance
(previous-transform snapshot first); with a non-null `outTransform`
(`hasOut = true`, camera path) no instance is touched at this node and the
world transform is the second component of the result; children are visited
with the world transform as parent and a null `outTransform`.  Result:
updated instance list and this node's world transform. -/
def NodeTree.animate (animationNodes : List AnimationNode) (parent : float4x4)
    (insts : List Instance) (hasOut : Bool) : NodeTree → List Instance × float4x4
  | .mk children instIdxs m h a =>
    let world := parent * localTransform animationNodes (.mk children instIdxs m h a)
    let insts1 := if hasOut then insts else writeInstances world instIdxs insts
    (NodeTree.animateList animationNodes world insts1 children, world)

/-- Recursion of `NodeTree::Animate` over the child list. -/
def NodeTree.animateList (animationNodes : List AnimationNode) (parent : float4x4)
    (insts : List Instance) : List NodeTree → List Instance
  | [] => insts
  | c :: cs =>
    NodeTree.animateList animationNodes parent
      (NodeTree.animate animationNodes parent insts false c).1 cs
end

/-- Modelled from the spec: normalized-progress advance with ping-pong
reflection — `progress += elapsedTime * speed / duration` (signed), reflected
at the bounds 1 and 0 with a `sign` flip.  Returns the new progress and the
new sign. -/
def advanceProgress (progress sign delta : ℚ) : ℚ × ℚ :=
  let p := progress + sign * delta
  if 1 < p then (2 - p, -sign)
  else if p < 0 then (-p, -sign)
  else (p, sign)

/-- Modelled from the spec: `Scene::Animate(animationSpeed, elapsedTime,
animationProgress, animationIndex, outCameraTransform)` (body not under
src/) — out-of-range `animationIndex` is a silent no-op; otherwise advance
normalized progress (ping-pong), convert back to milliseconds, `Update`
every animation node, run the root tree from the identity transform into the
instances, and the camera tree (when present) into `outCameraTransform`.
Result: updated scene, updated progress in/out argument, and the memory
`outCameraTransform` points to. -/
def Scene.Animate (s : Scene) (animationSpeed elapsedTime animationProgress : ℚ)
    (animationIndex : Nat) (outCameraTransform : Option float4x4) :
    Scene × ℚ × Option float4x4 :=
  if h : animationIndex < s.animations.length then
    let a := s.animations.get ⟨animationIndex, h⟩
    let pr := advanceProgress animationProgress a.sign
      (elapsedTime * animationSpeed / a.durationMs)
    let timeMs := pr.1 * a.durationMs
    let nodes := a.animationNodes.map (fun n => n.Update timeMs)
    let insts1 := (NodeTree.animate nodes 1 s.instances false a.rootNode).1
    let res :=
      if a.hasCameraAnimation then
        let c := NodeTree.animate nodes 1 insts1 true a.cameraNode
        (c.1, some c.2)
      else (insts1, outCameraTransform)
    let a2 := { a with
      animationNodes := nodes
      animationProgress := pr.1
      normalizedTime := pr.1
      sign := pr.2 }
    ({ s with instances := res.1, animations := s.animations.set animationIndex a2 },
      pr.1, res.2)
  else
    (s, animationProgress, outCameraTransform)

/-- `Scene::UnloadTextureData`: deletes every heap-owned texture and empties
the vector.  The first component is the list of textures destroyed by the
call (the `delete texture` loop); the second is the scene afterwards. -/
def Scene.UnloadTextureData (s : Scene) : List Texture × Scene :=
  (s.textures, { s with textures := [] })

/-- `Scene::~Scene() { UnloadTextureData(); }` -/
def Scene.destruct (s : Scene) : List Texture × Scene :=
  s.UnloadTextureData

/-- `Scene::UnloadGeometryData`: empties the four transient geometry
buffers. -/
def Scene.UnloadGeometryData (s : Scene) : Scene :=
  { s with vertices := [], unpackedVertices := [], indices := [], primitives := [] }

/-- A default-constructed `Animation`. -/
def defaultAnimation : Animation := {}

/-- Keyframe fixture: position keys 0ms → (0,0,0) and 1000ms → (10,0,0),
rotation keys 0ms → identity and 1000ms → x-axis half-turn, scale keys
0ms → unit and 1000ms → doubled. -/
def wNode : AnimationNode :=
  { positionKeys := [0, 1000]
    positionValues := [⟨0, 0, 0⟩, ⟨10, 0, 0⟩]
    rotationKeys := [0, 1000]
    rotationValues := [⟨0, 0, 0, 1⟩, ⟨1, 0, 0, 0⟩]
    scaleKeys := [0, 1000]
    scaleValues := [⟨1, 1, 1⟩, ⟨2, 2, 2⟩] }

/-- A one-second animation fixture with forward sign. -/
def wAnimation : Animation := { durationMs := 1000, sign := 1 }

/-- A scene holding just the fixture animation. -/
def wScene : Scene := { animations := [wAnimation] }

end utils

open utils

theorem lerpQ_one (a b : ℚ) : lerpQ 1 a b = b := by
  unfold lerpQ; ring

theorem lerpD3_one (a b : double3) : lerpD3 1 a b = b := by
  cases b
  simp [lerpD3, lerpQ_one]

theorem lerpF3_one (a b : float3) : lerpF3 1 a b = b := by
  cases b
  simp [lerpF3, lerpQ_one]

theorem slerpSA_one (a b : float4) : slerpSA 1 a b = b := by
  cases b
  simp [slerpSA, lerpQ_one]

theorem chain_le_getLastD (k : ℚ) (ks : List ℚ)
    (h : List.Chain (· < ·) k ks) : k ≤ ks.getLastD k := by
  induction ks generalizing k with
  | nil => simp [List.getLastD]
  | cons k1 ks ih =>
    rcases List.chain_cons.mp h with ⟨hk, hc⟩
    rw [List.getLastD_cons]
    exact le_trans (le_of_lt hk) (ih k1 hc)

theorem sampleGo_last {α : Type} (interp : ℚ → α → α → α)
    (hinterp : ∀ a b, interp 1 a b = b) (t k0 : ℚ) (v0 : α)
    (ks : List ℚ) (vs : List α) (hlen : ks.length = vs.length)
    (hch : List.Chain (· < ·) k0 ks) (ht : ks.getLastD k0 ≤ t) :
    sampleGo interp t k0 v0 ks vs = vs.getLastD v0 := by
  induction ks generalizing k0 v0 vs with
  | nil =>
    have hvs : vs = [] := List.length_eq_zero.mp hlen.symm
    subst hvs
    rfl
  | cons k1 ks ih =>
    cases vs with
    | nil => simp at hlen
    | cons v1 vs =>
      rcases List.chain_cons.mp hch with ⟨hk, hc⟩
      rw [List.getLastD_cons] at ht
      have hk1t : k1 ≤ t := le_trans (chain_le_getLastD k1 ks hc) ht
      by_cases hcase : t ≤ k1
      · have htk1 : t = k1 := le_antisymm hcase hk1t
        cases ks with
        | cons k2 ks2 =>
          exfalso
          rcases List.chain_cons.mp hc with ⟨hk2, hc2⟩
          rw [List.getLastD_cons] at ht
          have h2 : k1 < ks2.getLastD k2 :=
            lt_of_lt_of_le hk2 (chain_le_getLastD k2 ks2 hc2)
          exact absurd (le_trans ht hcase) (not_le.mpr h2)
        | nil =>
          have hvs : vs = [] := List.length_eq_zero.mp (by simpa using hlen.symm)
          subst hvs
          simp only [sampleGo, if_pos hcase, if_neg (ne_of_gt hk), htk1]
          rw [div_self (sub_ne_zero.mpr (ne_of_gt hk)), hinterp]
          simp [List.getLastD]
      · simp only [sampleGo, if_neg hcase]
        rw [List.getLastD_cons]
        exact ih k1 v1 vs (by simpa using hlen) hc ht

theorem sampleTrack_first {α : Type} (interp : ℚ → α → α → α) (dflt : α)
    (k : ℚ) (ks : List ℚ) (v : α) (vs : List α) (t : ℚ) (h : t ≤ k) :
    sampleTrack interp dflt (k :: ks) (v :: vs) t = v := by
  simp [sampleTrack, if_pos h]

theorem sampleTrack_last {α : Type} (interp : ℚ → α → α → α) (dflt : α)
    (hinterp : ∀ a b, interp 1 a b = b) (t k : ℚ) (ks : List ℚ)
    (v : α) (vs : List α) (hlen : ks.length = vs.length)
    (hch : List.Chain (· < ·) k ks) (ht : ks.getLastD k ≤ t) :
    sampleTrack interp dflt (k :: ks) (v :: vs) t = vs.getLastD v := by
  by_cases hcase : t ≤ k
  · cases ks with
    | nil =>
      have hvs : vs = [] := List.length_eq_zero.mp hlen.symm
      subst hvs
      simp [sampleTrack, if_pos hcase, List.getLastD]
    | cons k1 ks1 =>
      exfalso
      rcases List.chain_cons.mp hch with ⟨hk1, hc1⟩
      rw [List.getLastD_cons] at ht
      have h2 : k < ks1.getLastD k1 :=
        lt_of_lt_of_le hk1 (chain_le_getLastD k1 ks1 hc1)
      exact absurd (le_trans ht hcase) (not_le.mpr h2)
  · simp only [sampleTrack, if_neg hcase]
    exact sampleGo_last interp hinterp t k v ks vs hlen hch ht

/-- C1: `Scene::Animate` called with `animationIndex` greater than or equal
to the number of animations is a silent no-op: every scene field, the
progress in/out argument, and the memory behind `outCameraTransform` are
returned unchanged. -/
theorem c1_animate_invalid_index_noop (s : Scene)
    (speed elapsed progress : ℚ) (animationIndex : Nat)
    (out : Option float4x4) (h : s.animations.length ≤ animationIndex) :
    s.Animate speed elapsed progress animationIndex out = (s, progress, out) := by
  unfold Scene.Animate
  rw [dif_neg (by omega)]

/-- Witness for C1: animating the empty scene at index 0 changes nothing. -/
theorem c1_animate_invalid_index_noop_witness :
    ({} : Scene).animations.length ≤ 0 ∧
    Scene.Animate {} 1 1 (1/2) 0 none = ({}, 1/2, none) :=
  ⟨Nat.le_refl 0,
   c1_animate_invalid_index_noop {} 1 1 (1/2) 0 none (Nat.le_refl 0)⟩

/-- C2: every `NodeTree::Animate` call computes the world transform as
`parentTransform × localTransform` in that operand order; in a two-level
tree whose root contributes `R` and whose child contributes `C`, the
instance owned by the child receives `R × C` — and at a concrete
non-commuting pair this differs from `C × R`. -/
theorem c2_world_transform_order :
    (∀ (animationNodes : List AnimationNode) (parent : float4x4)
       (insts : List Instance) (hasOut : Bool) (t : NodeTree),
       (NodeTree.animate animationNodes parent insts hasOut t).2 =
         parent * localTransform animationNodes t) ∧
    (∀ (R C : float4x4) (inst : Instance),
       ((NodeTree.animate [] 1 [inst] false
           (.mk [.mk [] [0] C 0 InvalidIndex] [] R 0 InvalidIndex)).1.getD 0
         defaultInstance).rotation = R * C) ∧
    ((NodeTree.animate [] 1 [defaultInstance] false
        (.mk [.mk [] [0] (!![1,0,0,5; 0,1,0,0; 0,0,1,0; 0,0,0,1]) 0 InvalidIndex] []
          (!![0,1,0,0; 1,0,0,0; 0,0,1,0; 0,0,0,1]) 0 InvalidIndex)).1.getD 0
      defaultInstance).rotation ≠
      (!![1,0,0,5; 0,1,0,0; 0,0,1,0; 0,0,0,1] : float4x4) *
        !![0,1,0,0; 1,0,0,0; 0,0,1,0; 0,0,0,1] := by
  have hworld : ∀ (animationNodes : List AnimationNode) (parent : float4x4)
      (insts : List Instance) (hasOut : Bool) (t : NodeTree),
      (NodeTree.animate animationNodes parent insts hasOut t).2 =
        parent * localTransform animationNodes t := by
    intro animationNodes parent insts hasOut t
    cases t with
    | mk c i m h a => simp [NodeTree.animate, localTransform]
  have htwo : ∀ (R C : float4x4) (inst : Instance),
      ((NodeTree.animate [] 1 [inst] false
          (.mk [.mk [] [0] C 0 InvalidIndex] [] R 0 InvalidIndex)).1.getD 0
        defaultInstance).rotation = R * C := by
    intro R C inst
    simp [NodeTree.animate, NodeTree.animateList, writeInstances, writeInstance,
      localTransform, NodeTree.instances, NodeTree.children, NodeTree.animationNodeIndex,
      NodeTree.mTransform, List.getD, List.set]
  refine ⟨hworld, htwo, ?_⟩
  rw [htwo]
  intro h
  have h2 := congrFun (congrFun h 0) 3
  simp [Matrix.mul_apply, Fin.sum_univ_four] at h2

/-- C3: `NodeTree::Animate` snapshots the pre-call transform into the
`*Prev` fields before overwriting: after two consecutive calls assigning an
instance the transforms `T1 = P1 × local` then `T2 = P2 × local`, the
instance holds `rotationPrev/positionPrev = T1` and
`rotation/position = T2`. -/
theorem c3_prev_snapshot (A1 A2 : List AnimationNode) (P1 P2 M : float4x4)
    (hs ai : Nat) (inst : Instance) :
    (((NodeTree.animate A2 P2
         (NodeTree.animate A1 P1 [inst] false (.mk [] [0] M hs ai)).1 false
         (.mk [] [0] M hs ai)).1.getD 0 defaultInstance).rotationPrev =
       P1 * localTransform A1 (.mk [] [0] M hs ai)) ∧
    (((NodeTree.animate A2 P2
         (NodeTree.animate A1 P1 [inst] false (.mk [] [0] M hs ai)).1 false
         (.mk [] [0] M hs ai)).1.getD 0 defaultInstance).rotation =
       P2 * localTransform A2 (.mk [] [0] M hs ai)) ∧
    (((NodeTree.animate A2 P2
         (NodeTree.animate A1 P1 [inst] false (.mk [] [0] M hs ai)).1 false
         (.mk [] [0] M hs ai)).1.getD 0 defaultInstance).positionPrev =
       translationOf (P1 * localTransform A1 (.mk [] [0] M hs ai))) ∧
    (((NodeTree.animate A2 P2
         (NodeTree.animate A1 P1 [inst] false (.mk [] [0] M hs ai)).1 false
         (.mk [] [0] M hs ai)).1.getD 0 defaultInstance).position =
       translationOf (P2 * localTransform A2 (.mk [] [0] M hs ai))) := by
  refine ⟨?_, ?_, ?_, ?_⟩ <;>
    simp [NodeTree.animate, NodeTree.animateList, writeInstances, writeInstance,
      localTransform, NodeTree.instances, NodeTree.children, NodeTree.animationNodeIndex,
      NodeTree.mTransform, List.getD, List.set]

/-- C4: clamp law of `AnimationNode::Update`, per channel: with at least one
key in a channel, a sample at or before the first key time is exactly the
first key value, and a sample at or after the last key time (keys strictly
increasing, keys and values aligned) is exactly the last key value; the
updated `mTransform` is composed from exactly these channel samples. -/
theorem c4_update_clamp (n : AnimationNode) (t : ℚ) :
    ((n.Update t).mTransform = translationMat (n.samplePosition t) *
       quatToMat (n.sampleRotation t) * scaleMat (n.sampleScale t)) ∧
    (∀ k ks v vs, n.positionKeys = k :: ks → n.positionValues = v :: vs →
       t ≤ k → n.samplePosition t = v) ∧
    (∀ k ks v vs, n.positionKeys = k :: ks → n.positionValues = v :: vs →
       ks.length = vs.length → List.Chain (· < ·) k ks → ks.getLastD k ≤ t →
       n.samplePosition t = vs.getLastD v) ∧
    (∀ k ks v vs, n.rotationKeys = k :: ks → n.rotationValues = v :: vs →
       t ≤ k → n.sampleRotation t = v) ∧
    (∀ k ks v vs, n.rotationKeys = k :: ks → n.rotationValues = v :: vs →
       ks.length = vs.length → List.Chain (· < ·) k ks → ks.getLastD k ≤ t →
       n.sampleRotation t = vs.getLastD v) ∧
    (∀ k ks v vs, n.scaleKeys = k :: ks → n.scaleValues = v :: vs →
       t ≤ k → n.sampleScale t = v) ∧
    (∀ k ks v vs, n.scaleKeys = k :: ks → n.scaleValues = v :: vs →
       ks.length = vs.length → List.Chain (· < ·) k ks → ks.getLastD k ≤ t →
       n.sampleScale t = vs.getLastD v) := by
  refine ⟨rfl, ?_, ?_, ?_, ?_, ?_, ?_⟩
  · intro k ks v vs hk hv hle
    unfold AnimationNode.samplePosition
    rw [hk, hv]
    exact sampleTrack_first _ _ _ _ _ _ _ hle
  · intro k ks v vs hk hv hlen hch ht
    unfold AnimationNode.samplePosition
    rw [hk, hv]
    exact sampleTrack_last _ _ lerpD3_one t k ks v vs hlen hch ht
  · intro k ks v vs hk hv hle
    unfold AnimationNode.sampleRotation
    rw [hk, hv]
    exact sampleTrack_first _ _ _ _ _ _ _ hle
  · intro k ks v vs hk hv hlen hch ht
    unfold AnimationNode.sampleRotation
    rw [hk, hv]
    exact sampleTrack_last _ _ slerpSA_one t k ks v vs hlen hch ht
  · intro k ks v vs hk hv hle
    unfold AnimationNode.sampleScale
    rw [hk, hv]
    exact sampleTrack_first _ _ _ _ _ _ _ hle
  · intro k ks v vs hk hv hlen hch ht
    unfold AnimationNode.sampleScale
    rw [hk, hv]
    exact sampleTrack_last _ _ lerpF3_one t k ks v vs hlen hch ht

/-- Witness for C4: on the keyframe fixture (keys at 0ms and 1000ms in all
three channels), sampling at -5ms clamps to the first value and sampling at
2000ms clamps to the last value, in every channel. -/
theorem c4_update_clamp_witness :
    wNode.samplePosition (-5) = ⟨0, 0, 0⟩ ∧
    wNode.samplePosition 2000 = ⟨10, 0, 0⟩ ∧
    wNode.sampleRotation (-5) = ⟨0, 0, 0, 1⟩ ∧
    wNode.sampleRotation 2000 = ⟨1, 0, 0, 0⟩ ∧
    wNode.sampleScale (-5) = ⟨1, 1, 1⟩ ∧
    wNode.sampleScale 2000 = ⟨2, 2, 2⟩ := by
  refine ⟨?_, ?_, ?_, ?_, ?_, ?_⟩
  · exact (c4_update_clamp wNode (-5)).2.1 0 [1000] _ [⟨10, 0, 0⟩] rfl rfl
      (by norm_num)
  · exact (c4_update_clamp wNode 2000).2.2.1 0 [1000] ⟨0, 0, 0⟩ _ rfl rfl rfl
      (by norm_num [List.chain_cons]) (by norm_num [List.getLastD_cons, List.getLastD_nil])
  · exact (c4_update_clamp wNode (-5)).2.2.2.1 0 [1000] _ [⟨1, 0, 0, 0⟩] rfl rfl
      (by norm_num)
  · exact (c4_update_clamp wNode 2000).2.2.2.2.1 0 [1000] ⟨0, 0, 0, 1⟩ _ rfl rfl rfl
      (by norm_num [List.chain_cons]) (by norm_num [List.getLastD_cons, List.getLastD_nil])
  · exact (c4_update_clamp wNode (-5)).2.2.2.2.2.1 0 [1000] _ [⟨2, 2, 2⟩] rfl rfl
      (by norm_num)
  · exact (c4_update_clamp wNode 2000).2.2.2.2.2.2 0 [1000] ⟨1, 1, 1⟩ _ rfl rfl rfl
      (by norm_num [List.chain_cons]) (by norm_num [List.getLastD_cons, List.getLastD_nil])

/-- C5: `AnimationNode::Update` is pure in `time` and the keyframe data:
repeating `Update(t)` leaves the node (in particular `mTransform`)
identical, and the result is independent of whatever `mTransform` held
before the call. -/
theorem c5_update_idempotent (n : AnimationNode) (t : ℚ) :
    (n.Update t).Update t = n.Update t ∧
    ∀ M : float4x4, AnimationNode.Update { n with mTransform := M } t = n.Update t :=
  ⟨rfl, fun _ => rfl⟩

/-- C6: ping-pong progress advance of `Scene::Animate`: progress driven past
1 is reflected back toward 0 with the sign negated, progress driven past 0
is reflected back toward 1 with the sign negated, the result stays within
[0,1], and `Scene::Animate` reports exactly this advanced progress and
stores the flipped sign in the selected animation. -/
theorem c6_pingpong_reflection (progress sign delta : ℚ)
    (h0 : 0 ≤ progress) (h1 : progress ≤ 1) (hd : |sign * delta| ≤ 1) :
    (1 < progress + sign * delta →
      advanceProgress progress sign delta = (2 - (progress + sign * delta), -sign)) ∧
    (progress + sign * delta < 0 →
      advanceProgress progress sign delta = (-(progress + sign * delta), -sign)) ∧
    0 ≤ (advanceProgress progress sign delta).1 ∧
    (advanceProgress progress sign delta).1 ≤ 1 ∧
    (∀ (s : Scene) (speed elapsed : ℚ) (i : Nat) (out : Option float4x4)
       (hi : i < s.animations.length),
       sign = (s.animations.get ⟨i, hi⟩).sign →
       delta = elapsed * speed / (s.animations.get ⟨i, hi⟩).durationMs →
       (s.Animate speed elapsed progress i out).2.1 =
         (advanceProgress progress sign delta).1 ∧
       ((s.Animate speed elapsed progress i out).1.animations[i]?.getD defaultAnimation).sign =
         (advanceProgress progress sign delta).2) := by
  rw [abs_le] at hd
  obtain ⟨hd1, hd2⟩ := hd
  have hlink : ∀ (s : Scene) (speed elapsed : ℚ) (i : Nat) (out : Option float4x4)
      (hi : i < s.animations.length),
      sign = (s.animations.get ⟨i, hi⟩).sign →
      delta = elapsed * speed / (s.animations.get ⟨i, hi⟩).durationMs →
      (s.Animate speed elapsed progress i out).2.1 =
        (advanceProgress progress sign delta).1 ∧
      ((s.Animate speed elapsed progress i out).1.animations[i]?.getD defaultAnimation).sign =
        (advanceProgress progress sign delta).2 := by
    intro s speed elapsed i out hi hsign hdelta
    subst hsign hdelta
    constructor
    · simp only [Scene.Animate, dif_pos hi]
    · simp only [Scene.Animate, dif_pos hi]
      simp [List.getElem?_set_self, hi]
  refine ⟨?_, ?_, ?_, ?_, hlink⟩
  · intro hc1
    simp only [advanceProgress]
    rw [if_pos hc1]
  · intro hc2
    have hc1 : ¬ 1 < progress + sign * delta := by linarith
    simp only [advanceProgress]
    rw [if_neg hc1, if_pos hc2]
  · by_cases hc1 : 1 < progress + sign * delta
    · simp only [advanceProgress]
      rw [if_pos hc1]
      simp only
      linarith
    · by_cases hc2 : progress + sign * delta < 0
      · simp only [advanceProgress]
        rw [if_neg hc1, if_pos hc2]
        simp only
        linarith
      · simp only [advanceProgress]
        rw [if_neg hc1, if_neg hc2]
        simp only
        linarith
  · by_cases hc1 : 1 < progress + sign * delta
    · simp only [advanceProgress]
      rw [if_pos hc1]
      simp only
      linarith
    · by_cases hc2 : progress + sign * delta < 0
      · simp only [advanceProgress]
        rw [if_neg hc1, if_pos hc2]
        simp only
        linarith
      · simp only [advanceProgress]
        rw [if_neg hc1, if_neg hc2]
        simp only
        linarith

/-- Witness for C6: progress 9/10 with forward sign and step 1/5 overshoots
to 11/10 and is reflected to 9/10 with the sign negated — both at the level
of `advanceProgress` and through `Scene::Animate` on the fixture scene
(duration 1000ms, speed 1, elapsed 200ms); a mirrored case bounces off 0. -/
theorem c6_pingpong_reflection_witness :
    advanceProgress (9/10) 1 (1/5) = (9/10, -1) ∧
    advanceProgress (1/10) (-1) (1/5) = (1/10, 1) ∧
    (0 ≤ (advanceProgress (9/10) 1 (1/5)).1 ∧ (advanceProgress (9/10) 1 (1/5)).1 ≤ 1) ∧
    (wScene.Animate 1 200 (9/10) 0 none).2.1 = 9/10 ∧
    ((wScene.Animate 1 200 (9/10) 0 none).1.animations[0]?.getD defaultAnimation).sign = -1 := by
  have h1 := c6_pingpong_reflection (9/10) 1 (1/5) (by norm_num) (by norm_num)
    (by rw [abs_le]; constructor <;> norm_num)
  have h2 := c6_pingpong_reflection (1/10) (-1) (1/5) (by norm_num) (by norm_num)
    (by rw [abs_le]; constructor <;> norm_num)
  have hv : (0:Nat) < wScene.animations.length := by
    simp [wScene]
  have hrefl : advanceProgress (9/10) 1 (1/5) = (9/10, -1) := by
    have := h1.1 (by norm_num)
    rw [this]
    norm_num
  have hrefl2 : advanceProgress (1/10) (-1) (1/5) = (1/10, 1) := by
    have := h2.2.1 (by norm_num)
    rw [this]
    norm_num
  have hlink := h1.2.2.2.2 wScene 1 200 0 none hv
    (by simp [wScene, wAnimation, List.get]) (by simp [wScene, wAnimation, List.get]; norm_num)
  refine ⟨hrefl, hrefl2, ⟨h1.2.2.1, h1.2.2.2.1⟩, ?_, ?_⟩
  · rw [hlink.1, hrefl]
  · rw [hlink.2, hrefl]

/-- C7: `UnloadTextureData` destroys exactly the textures held in the list and
leaves the vector empty; the `Scene` destructor performs the very same
unload. -/
theorem c7_texture_ownership (s : Scene) :
    (s.UnloadTextureData).1 = s.textures ∧
    (s.UnloadTextureData).2.textures = [] ∧
    s.destruct = s.UnloadTextureData := by
  refine ⟨rfl, rfl, rfl⟩

/-- C8: `UnloadGeometryData` empties exactly vertices, unpackedVertices,
indices and primitives, leaving every other field unchanged; symmetrically
`UnloadTextureData` leaves every field other than textures unchanged. -/
theorem c8_unload_separation (s : Scene) :
    (s.UnloadGeometryData.vertices = [] ∧
     s.UnloadGeometryData.unpackedVertices = [] ∧
     s.UnloadGeometryData.indices = [] ∧
     s.UnloadGeometryData.primitives = [] ∧
     s.UnloadGeometryData.textures = s.textures ∧
     s.UnloadGeometryData.materials = s.materials ∧
     s.UnloadGeometryData.instances = s.instances ∧
     s.UnloadGeometryData.meshes = s.meshes ∧
     s.UnloadGeometryData.animations = s.animations ∧
     s.UnloadGeometryData.mSceneToWorld = s.mSceneToWorld ∧
     s.UnloadGeometryData.aabb = s.aabb) ∧
    ((s.UnloadTextureData).2.vertices = s.vertices ∧
     (s.UnloadTextureData).2.unpackedVertices = s.unpackedVertices ∧
     (s.UnloadTextureData).2.indices = s.indices ∧
     (s.UnloadTextureData).2.primitives = s.primitives ∧
     (s.UnloadTextureData).2.materials = s.materials ∧
     (s.UnloadTextureData).2.instances = s.instances ∧
     (s.UnloadTextureData).2.meshes = s.meshes ∧
     (s.UnloadTextureData).2.animations = s.animations ∧
     (s.UnloadTextureData).2.mSceneToWorld = s.mSceneToWorld ∧
     (s.UnloadTextureData).2.aabb = s.aabb) := by
  exact ⟨⟨rfl, rfl, rfl, rfl, rfl, rfl, rfl, rfl, rfl, rfl, rfl⟩,
         ⟨rfl, rfl, rfl, rfl, rfl, rfl, rfl, rfl, rfl, rfl⟩⟩

/-- C9: a default-constructed `Instance` has identity current and previous
rotations, zero current and previous positions (so current = previous for
both), unit scale, invalid mesh/material indices and `allowUpdate = false`. -/
theorem c9_default_instance :
    defaultInstance.rotation = 1 ∧
    defaultInstance.rotationPrev = 1 ∧
    defaultInstance.rotation = defaultInstance.rotationPrev ∧
    defaultInstance.position = ⟨0, 0, 0⟩ ∧
    defaultInstance.positionPrev = ⟨0, 0, 0⟩ ∧
    defaultInstance.position = defaultInstance.positionPrev ∧
    defaultInstance.scale = ⟨1, 1, 1⟩ ∧
    defaultInstance.meshIndex = InvalidIndex ∧
    defaultInstance.materialIndex = InvalidIndex ∧
    defaultInstance.allowUpdate = false := by
  exact ⟨rfl, rfl, rfl, rfl, rfl, rfl, rfl, rfl, rfl, rfl⟩

/-- C10: both unload operations are idempotent — a second
`UnloadTextureData` (including the destructor after an explicit unload)
deletes nothing and leaves the scene unchanged, and a second
`UnloadGeometryData` leaves the scene unchanged. -/
theorem c10_unload_idempotent (s : Scene) :
    (s.UnloadTextureData).2.UnloadTextureData = ([], (s.UnloadTextureData).2) ∧
    (s.UnloadTextureData).2.destruct = ([], (s.UnloadTextureData).2) ∧
    s.UnloadGeometryData.UnloadGeometryData = s.UnloadGeometryData := by
  exact ⟨rfl, rfl, rfl⟩
